import Mathlib

/-!
Shallow embedding of the gateway reverse proxy in src/main.go: the usage
registry (a Go map guarded by one mutex), the startup load loop that seeds
it from the backing store, the per-request proxy handler, and the outbound
forwarding helper.  Stateful handler code is modelled as a pure function
from the pre-state and a transport oracle to the client response, the new
registry, and a trace of observable events (outbound forward, lock
acquire/release, persistence write, log lines), so that claims about lock
scope, side effects and response relaying can be stated and settled.
-/

namespace Gateway

/-- The `App` struct of main.go (lines 23-26): a backend application's
TCP port and its usage count.  Both fields are Go `int` (64-bit signed)
values: every value stored in them lies in [goIntMin, goIntMax] — ports
come from `Atoi`, which enforces the range, counts from the int64 BSON
decode and from the wrapping increment `wrap64` — and all count
arithmetic in the model goes through `wrap64`. -/
structure App where
  port : Int
  count : Int
deriving DecidableEq

/-- The in-memory map `UsageData.Apps : map[int]*App`, modelled as an
association list with Go map semantics: assignment overwrites the entry
for an existing key, lookup returns the stored value if present. -/
abbrev Registry := List (Int × Int)

/-- Go map read `usageData.Apps[port]` (with the comma-ok form): the count
stored for a port, or `none` when absent. -/
def mapLookup : Registry → Int → Option Int
  | [], _ => none
  | (k, v) :: rest, p => if k = p then some v else mapLookup rest p

/-- Go map assignment `usageData.Apps[k] = v` (also covering the in-place
`app.Count++` through the stored pointer): overwrite the entry for `k` if
one exists, otherwise add one. -/
def mapInsert : Registry → Int → Int → Registry
  | [], k, v => [(k, v)]
  | (k', v') :: rest, k, v =>
      if k' = k then (k, v) :: rest else (k', v') :: mapInsert rest k v

/-- Largest value of Go's 64-bit `int`. -/
def goIntMax : Int := 2 ^ 63 - 1

/-- Smallest value of Go's 64-bit `int`. -/
def goIntMin : Int := -(2 ^ 63)

/-- Two's-complement wrap-around into Go's 64-bit `int` range: Go defines
signed integer overflow to wrap, so every arithmetic result on an `int`
is reduced modulo 2^64 into [goIntMin, goIntMax].  `app.Count++`
(main.go line 112) is `wrap64 (count + 1)`. -/
def wrap64 (n : Int) : Int :=
  (n + 2 ^ 63) % 2 ^ 64 - 2 ^ 63

/-- Parse a run of ASCII decimal digits, rejecting any other character;
the empty run is accepted with the current accumulator (the caller rules
out an empty digit string). -/
def parseDigits : List Char → Nat → Option Nat
  | [], acc => some acc
  | c :: cs, acc =>
      if c.isDigit then parseDigits cs (acc * 10 + (c.toNat - 48)) else none

/-- `strconv.Atoi` (main.go line 101): an optional single leading sign,
then one or more decimal digits, with the result required to fit in a
64-bit `int`; everything else is an error (`none`). -/
def atoi (s : String) : Option Int :=
  let stripped : Bool × List Char :=
    match s.data with
    | '-' :: rest => (true, rest)
    | '+' :: rest => (false, rest)
    | cs => (false, cs)
  match stripped.2 with
  | [] => none
  | ds =>
      match parseDigits ds 0 with
      | none => none
      | some n =>
          let v : Int := if stripped.1 then -(n : Int) else (n : Int)
          if goIntMin ≤ v ∧ v ≤ goIntMax then some v else none

/-- The fields of the inbound `*http.Request` that the handler and
`proxyRequest` read: the `appID` path parameter, `r.URL.Path`,
`r.URL.RawQuery` (present on the request but never read by the code),
`r.Method`, `r.Header` and `r.Body`. -/
structure Req where
  pathSeg : String
  path : String
  rawQuery : String
  method : String
  headers : List (String × String)
  body : String
deriving DecidableEq

/-- An HTTP response as the client sees it: status code, headers, body. -/
structure Resp where
  status : Nat
  headers : List (String × String)
  body : String
deriving DecidableEq

/-- The outbound request built by `proxyRequest` (main.go lines 134-140):
method, full URL, headers and body. -/
structure OutboundReq where
  method : String
  url : String
  headers : List (String × String)
  body : String
deriving DecidableEq

/-- The outbound URL of main.go line 134:
`fmt.Sprintf("http://localhost:%d%s", port, r.URL.Path)`. -/
def proxyURL (port : Int) (path : String) : String :=
  "http://localhost:" ++ toString port ++ path

/-- The outbound request assembled from the inbound one (main.go lines
135-140): same method, the loopback URL from port and path, the inbound
headers (`req.Header = r.Header`) and the inbound body. -/
def mkOutbound (port : Int) (r : Req) : OutboundReq :=
  { method := r.method
    url := proxyURL port r.path
    headers := r.headers
    body := r.body }

/-- Outcome of the outbound exchange, an oracle for the two fallible
calls in `proxyRequest`: `http.NewRequest` failing (`createErr`),
`http.DefaultClient.Do` failing at the transport level (`transportErr`),
or a completed exchange carrying the backend's response. -/
inductive Outbound where
  | createErr
  | transportErr
  | ok (resp : Resp)
deriving DecidableEq

/-- `http.Error(w, msg, status)`: plain-text error response whose body is
the message followed by a newline. -/
def httpError (status : Nat) (msg : String) : Resp :=
  { status := status
    headers :=
      [("Content-Type", "text/plain; charset=utf-8"),
       ("X-Content-Type-Options", "nosniff")]
    body := msg ++ "\x0a" }

/-- `proxyRequest` (main.go lines 133-156): returns the response written
to the client and, when the outbound request was actually sent, the
request that went out.  On `createErr` nothing is sent and a 500 is
written; on `transportErr` the request was sent but failed and a 500 is
written; on success every response header, the status code, and the body
are copied to the client. -/
def proxyRequest (port : Int) (r : Req) (outcome : Outbound) :
    Resp × Option OutboundReq :=
  match outcome with
  | .createErr => (httpError 500 "Error creating request", none)
  | .transportErr =>
      (httpError 500 "Error forwarding request", some (mkOutbound port r))
  | .ok resp =>
      ({ status := resp.status, headers := resp.headers, body := resp.body },
       some (mkOutbound port r))

/-- Observable events of one handler run, in program order: an outbound
forward, mutex acquire/release on `usageData`, the `collection.UpdateOne`
persistence write with the count it carries, and the two log lines of the
increment section. -/
inductive Event where
  | forward (req : OutboundReq)
  | lockAcq
  | lockRel
  | persistWrite (port : Int) (count : Int)
  | logMiss (port : Int)
  | logPersistErr (port : Int)
deriving DecidableEq

/-- The forward event emitted for an outbound exchange that was actually
sent, i.e. whenever `proxyRequest` produced an outbound request. -/
def forwardEvents (o : Option OutboundReq) : List Event :=
  match o with
  | none => []
  | some ob => [Event.forward ob]

/-- One inbound request together with the oracles for its external
effects: the outcome of the outbound exchange and whether the MongoDB
`UpdateOne` succeeds. -/
structure HandlerInput where
  req : Req
  outcome : Outbound
  persistOk : Bool
deriving DecidableEq

/-- What one handler run produces: the client response, the registry
after the run, and the event trace. -/
structure HandlerOutput where
  resp : Resp
  reg : Registry
  events : List Event
deriving DecidableEq

/-- The proxy route handler of main.go lines 99-127.  Parse the `appID`
path segment with `Atoi`; on failure answer 400 and stop.  Otherwise run
`proxyRequest`, then — unconditionally, whatever the outbound outcome —
take the lock, look the port up, and if a record exists increment its
count with Go's wrapping 64-bit `++` and issue one `UpdateOne` carrying
the new count (logging a persistence error), else log a miss; release
the lock. -/
def handle (reg : Registry) (inp : HandlerInput) : HandlerOutput :=
  match atoi inp.req.pathSeg with
  | none =>
      { resp := httpError 400 "Invalid application ID", reg := reg, events := [] }
  | some port =>
      let pr := proxyRequest port inp.req inp.outcome
      let pev : List Event := forwardEvents pr.2
      match mapLookup reg port with
      | some c =>
          let newCount := wrap64 (c + 1)
          let perr : List Event :=
            if inp.persistOk then [] else [.logPersistErr port]
          { resp := pr.1
            reg := mapInsert reg port newCount
            events :=
              pev ++ [.lockAcq, .persistWrite port newCount] ++ perr ++ [.lockRel] }
      | none =>
          { resp := pr.1
            reg := reg
            events := pev ++ [.lockAcq, .logMiss port, .lockRel] }

/-- One iteration of the startup load loop of main.go lines 79-88: a
document that fails to decode is logged and skipped (`none`), a decoded
`App` is stored into the map under its port. -/
def loadStep (m : Registry) (d : Option App) : Registry :=
  match d with
  | none => m
  | some a => mapInsert m a.port a.count

/-- The startup load loop of main.go lines 79-88, run over everything the
cursor yields, starting from the empty map the registry holds at boot. -/
def loadApps (docs : List (Option App)) : Registry :=
  docs.foldl loadStep []

/-- A sequence of handler runs threading the registry through. -/
def runSeq (reg : Registry) : List HandlerInput → Registry
  | [] => reg
  | inp :: rest => runSeq (handle reg inp).reg rest

/-- Number of lock acquisitions minus releases in a trace (the traces
produced by `handle` never release before acquiring, so the truncated
subtraction on `Nat` is exact). -/
def lockBalance : List Event → Nat
  | [] => 0
  | e :: tr =>
      match e with
      | .lockAcq => lockBalance tr + 1
      | .lockRel => lockBalance tr - 1
      | _ => lockBalance tr

/-- True when, just before position `i` of the trace, the `usageData`
mutex is held: more acquires than releases among the first `i` events. -/
def heldAt (tr : List Event) (i : Nat) : Prop :=
  0 < lockBalance (tr.take i)

instance (tr : List Event) (i : Nat) : Decidable (heldAt tr i) := by
  unfold heldAt; infer_instance

/-- Whether an event is the persistence write. -/
def isPersistEvent : Event → Bool
  | .persistWrite _ _ => true
  | _ => false

/-- A minimal concrete inbound request targeting the given path segment. -/
def sampleReq (seg : String) : Req :=
  { pathSeg := seg
    path := "/" ++ seg
    rawQuery := ""
    method := "GET"
    headers := []
    body := "" }

/-- A concrete backend response used in the example theorems. -/
def sampleResp : Resp :=
  { status := 200, headers := [("Content-Type", "text/plain")], body := "ok" }

/-! ### Helper lemmas about 64-bit wrapping -/

theorem wrap64_eq_self (n : Int) (hlo : goIntMin ≤ n) (hhi : n ≤ goIntMax) :
    wrap64 n = n := by
  unfold wrap64
  unfold goIntMin at hlo
  unfold goIntMax at hhi
  have h1 : (0 : Int) ≤ n + 2 ^ 63 := by norm_num at hlo ⊢; linarith
  have h2 : n + 2 ^ 63 < 2 ^ 64 := by norm_num at hhi ⊢; linarith
  rw [Int.emod_eq_of_lt h1 h2]
  ring

theorem wrap64_inRange (n : Int) :
    goIntMin ≤ wrap64 n ∧ wrap64 n ≤ goIntMax := by
  unfold wrap64 goIntMin goIntMax
  have hpos : (0 : Int) < 2 ^ 64 := by norm_num
  have h1 := Int.emod_nonneg (n + 2 ^ 63) (by norm_num : (2 : Int) ^ 64 ≠ 0)
  have h2 := Int.emod_lt_of_pos (n + 2 ^ 63) hpos
  constructor <;> norm_num at h1 h2 ⊢ <;> linarith

/-! ### Helper lemmas about the registry map -/

theorem mapLookup_mapInsert_self (m : Registry) (k v : Int) :
    mapLookup (mapInsert m k v) k = some v := by
  induction m with
  | nil => simp [mapInsert, mapLookup]
  | cons hd tl ih =>
      obtain ⟨k', v'⟩ := hd
      by_cases h : k' = k <;> simp [mapInsert, mapLookup, h, ih]

theorem mapLookup_mapInsert_ne (m : Registry) (k v p : Int) (h : p ≠ k) :
    mapLookup (mapInsert m k v) p = mapLookup m p := by
  have hk : ¬k = p := fun hh => h hh.symm
  induction m with
  | nil => simp [mapInsert, mapLookup, hk]
  | cons hd tl ih =>
      obtain ⟨k', v'⟩ := hd
      by_cases hkk : k' = k
      · subst hkk
        simp [mapInsert, mapLookup, hk]
      · simp only [mapInsert, if_neg hkk, mapLookup, ih]

theorem mapInsert_cons (tl : Registry) (k' v' k v : Int) :
    mapInsert ((k', v') :: tl) k v =
      if k' = k then (k, v) :: tl else (k', v') :: mapInsert tl k v := rfl

theorem mem_keys_mapInsert (m : Registry) (k v p : Int) :
    p ∈ (mapInsert m k v).map Prod.fst ↔ p ∈ m.map Prod.fst ∨ p = k := by
  induction m with
  | nil => simp [mapInsert, eq_comm]
  | cons hd tl ih =>
      obtain ⟨k', v'⟩ := hd
      rw [mapInsert_cons]
      by_cases hk : k' = k
      · subst hk
        rw [if_pos rfl]
        simp only [List.map_cons, List.mem_cons]
        tauto
      · rw [if_neg hk]
        simp only [List.map_cons, List.mem_cons, ih]
        tauto

theorem nodup_keys_mapInsert (m : Registry) (k v : Int)
    (h : (m.map Prod.fst).Nodup) :
    ((mapInsert m k v).map Prod.fst).Nodup := by
  induction m with
  | nil => simp [mapInsert]
  | cons hd tl ih =>
      obtain ⟨k', v'⟩ := hd
      simp only [List.map_cons, List.nodup_cons] at h
      rw [mapInsert_cons]
      by_cases hk : k' = k
      · subst hk
        rw [if_pos rfl]
        simp only [List.map_cons, List.nodup_cons]
        exact h
      · rw [if_neg hk]
        simp only [List.map_cons, List.nodup_cons]
        refine ⟨?_, ih h.2⟩
        rw [mem_keys_mapInsert]
        rintro (hc | hc)
        · exact h.1 hc
        · exact hk hc

/-! ### Characterizations of one handler run, by the three control paths -/

theorem handle_badid (reg : Registry) (inp : HandlerInput)
    (hp : atoi inp.req.pathSeg = none) :
    handle reg inp =
      { resp := httpError 400 "Invalid application ID", reg := reg, events := [] } := by
  unfold handle
  rw [hp]

theorem handle_found (reg : Registry) (inp : HandlerInput) (port c : Int)
    (hp : atoi inp.req.pathSeg = some port)
    (hc : mapLookup reg port = some c) :
    handle reg inp =
      { resp := (proxyRequest port inp.req inp.outcome).1
        reg := mapInsert reg port (wrap64 (c + 1))
        events :=
          forwardEvents (proxyRequest port inp.req inp.outcome).2 ++
          [Event.lockAcq, Event.persistWrite port (wrap64 (c + 1))] ++
          (if inp.persistOk then [] else [Event.logPersistErr port]) ++
          [Event.lockRel] } := by
  unfold handle
  split
  · simp_all
  · rename_i port' heq
    rw [hp] at heq
    injection heq with heq
    subst heq
    dsimp only
    split
    · rename_i c' hc'
      rw [hc] at hc'
      injection hc' with hc'
      subst hc'
      rfl
    · rename_i hc'
      rw [hc] at hc'
      exact absurd hc' (by simp)

theorem handle_miss (reg : Registry) (inp : HandlerInput) (port : Int)
    (hp : atoi inp.req.pathSeg = some port)
    (hc : mapLookup reg port = none) :
    handle reg inp =
      { resp := (proxyRequest port inp.req inp.outcome).1
        reg := reg
        events :=
          forwardEvents (proxyRequest port inp.req inp.outcome).2 ++
          [Event.lockAcq, Event.logMiss port, Event.lockRel] } := by
  unfold handle
  split
  · simp_all
  · rename_i port' heq
    rw [hp] at heq
    injection heq with heq
    subst heq
    dsimp only
    split
    · rename_i c' hc'
      rw [hc] at hc'
      exact absurd hc' (by simp)
    · rfl

/-- One handler run either leaves a stored count unchanged or replaces it
by the wrapping increment; it never removes a record. -/
theorem handle_count_step (reg : Registry) (inp : HandlerInput) (p c : Int)
    (h : mapLookup reg p = some c) :
    mapLookup (handle reg inp).reg p = some c ∨
    mapLookup (handle reg inp).reg p = some (wrap64 (c + 1)) := by
  cases hp : atoi inp.req.pathSeg with
  | none =>
      rw [handle_badid reg inp hp]
      exact Or.inl h
  | some port =>
      cases hc : mapLookup reg port with
      | none =>
          rw [handle_miss reg inp port hp hc]
          exact Or.inl h
      | some c0 =>
          rw [handle_found reg inp port c0 hp hc]
          by_cases hpp : p = port
          · subst hpp
            rw [h] at hc
            injection hc with hc
            subst hc
            exact Or.inr (mapLookup_mapInsert_self reg _ _)
          · exact Or.inl
              ((mapLookup_mapInsert_ne reg port (wrap64 (c0 + 1)) p hpp).trans h)

/-! ### Helper lemmas about the startup load loop -/

theorem loadApps_map_some (records : List App) :
    loadApps (records.map some) =
      records.foldl (fun m a => mapInsert m a.port a.count) [] := by
  simp [loadApps, List.foldl_map, loadStep]

theorem load_fold_lookup_not_mem (records : List App) (m : Registry) (p : Int)
    (h : p ∉ records.map App.port) :
    mapLookup (records.foldl (fun m a => mapInsert m a.port a.count) m) p =
      mapLookup m p := by
  induction records generalizing m with
  | nil => rfl
  | cons a rest ih =>
      simp only [List.map_cons, List.mem_cons] at h
      push_neg at h
      rw [List.foldl_cons, ih _ h.2]
      exact mapLookup_mapInsert_ne m a.port a.count p h.1

theorem load_fold_lookup_mem (records : List App) (m : Registry) (a : App)
    (hnd : (records.map App.port).Nodup) (ha : a ∈ records) :
    mapLookup (records.foldl (fun m a => mapInsert m a.port a.count) m) a.port =
      some a.count := by
  induction records generalizing m with
  | nil => cases ha
  | cons b rest ih =>
      simp only [List.map_cons, List.nodup_cons] at hnd
      rw [List.foldl_cons]
      rcases List.mem_cons.mp ha with hab | ha'
      · subst hab
        rw [load_fold_lookup_not_mem rest _ _ hnd.1]
        exact mapLookup_mapInsert_self m a.port a.count
      · exact ih _ hnd.2 ha'

theorem load_fold_keys_nodup (records : List App) (m : Registry)
    (h : (m.map Prod.fst).Nodup) :
    (((records.foldl (fun m a => mapInsert m a.port a.count) m)).map Prod.fst).Nodup := by
  induction records generalizing m with
  | nil => exact h
  | cons a rest ih =>
      rw [List.foldl_cons]
      exact ih _ (nodup_keys_mapInsert m a.port a.count h)

/-! ### Claims -/

/-- Claim C2, counterexample: the path segment "0" is not a valid positive
integer, yet `strconv.Atoi` parses it, so the handler does not answer 400:
it forwards the request and relays the backend's 204. -/
theorem zeroIdentifierNotRejected :
    atoi "0" = some 0 ∧
    (handle []
        { req := sampleReq "0"
          outcome := .ok { status := 204, headers := [], body := "" }
          persistOk := true }).resp.status = 204 ∧
    (handle []
        { req := sampleReq "0"
          outcome := .ok { status := 204, headers := [], body := "" }
          persistOk := true }).events ≠ [] := by
  decide

/-- Claim C2, amended: if the first path segment does not parse as a Go
integer (optional sign then digits, within the 64-bit range) the handler
responds 400 with no forwarding, no registry mutation and no persistence
write; zero and negative integers, however, do parse and are therefore
forwarded rather than rejected. -/
theorem invalidIdentifierRejected (reg : Registry) (inp : HandlerInput)
    (hp : atoi inp.req.pathSeg = none) :
    (handle reg inp).resp.status = 400 ∧
    (handle reg inp).reg = reg ∧
    (handle reg inp).events = [] := by
  rw [handle_badid reg inp hp]
  exact ⟨rfl, rfl, rfl⟩

/-- Claim C2, witness: the non-numeric segment "abc" is rejected with 400,
no event is emitted and the registry is untouched. -/
theorem invalidIdentifierRejectedWitness :
    (handle [(8080, 5)]
        { req := sampleReq "abc", outcome := .transportErr, persistOk := true }).resp.status = 400 ∧
    (handle [(8080, 5)]
        { req := sampleReq "abc", outcome := .transportErr, persistOk := true }).reg = [(8080, 5)] ∧
    (handle [(8080, 5)]
        { req := sampleReq "abc", outcome := .transportErr, persistOk := true }).events = [] :=
  invalidIdentifierRejected [(8080, 5)]
    { req := sampleReq "abc", outcome := .transportErr, persistOk := true } (by decide)

/-- Claim C1, counterexample: with record (8080, 5) and a transport
failure on the forward, the client does receive a 500, but the registry
mutation is not suppressed: the count becomes 6 and a persistence write
carrying 6 is issued, refuting the claim that no mutation occurs. -/
theorem transportFailureStillCounted :
    (handle [(8080, 5)]
        { req := sampleReq "8080", outcome := .transportErr, persistOk := true }).resp.status = 500 ∧
    mapLookup (handle [(8080, 5)]
        { req := sampleReq "8080", outcome := .transportErr, persistOk := true }).reg 8080 = some 6 ∧
    Event.persistWrite 8080 6 ∈
      (handle [(8080, 5)]
        { req := sampleReq "8080", outcome := .transportErr, persistOk := true }).events := by
  decide

/-- Claim C1, amended: on a transport-level failure of the forward the
client receives a 500, but the handler still runs the increment section:
if the identifier has a record, its count is replaced by the wrapping
64-bit increment of the old count and a persistence write with that new
count is issued; only when no record exists is the registry left
unchanged with no persistence write. -/
theorem transportFailureResponseAndMutation (reg : Registry)
    (inp : HandlerInput) (port : Int)
    (hp : atoi inp.req.pathSeg = some port)
    (ht : inp.outcome = Outbound.transportErr) :
    (handle reg inp).resp.status = 500 ∧
    (∀ c, mapLookup reg port = some c →
        mapLookup (handle reg inp).reg port = some (wrap64 (c + 1)) ∧
        Event.persistWrite port (wrap64 (c + 1)) ∈ (handle reg inp).events) ∧
    (mapLookup reg port = none →
        (handle reg inp).reg = reg ∧
        (handle reg inp).events.filter isPersistEvent = []) := by
  refine ⟨?_, ?_, ?_⟩
  · cases hc : mapLookup reg port with
    | none => rw [handle_miss reg inp port hp hc, ht]; rfl
    | some c => rw [handle_found reg inp port c hp hc, ht]; rfl
  · intro c hc
    rw [handle_found reg inp port c hp hc]
    refine ⟨mapLookup_mapInsert_self reg port (wrap64 (c + 1)), ?_⟩
    rw [ht]
    cases inp.persistOk <;> simp [forwardEvents, proxyRequest]
  · intro hc
    rw [handle_miss reg inp port hp hc]
    refine ⟨rfl, ?_⟩
    rw [ht]
    simp [forwardEvents, proxyRequest, isPersistEvent]

/-- Claim C1, amended witness: the concrete run of the amended statement
on record (9090, 2) with a transport failure. -/
theorem transportFailureResponseAndMutationWitness :
    (handle [(9090, 2)]
        { req := sampleReq "9090", outcome := .transportErr, persistOk := true }).resp.status = 500 ∧
    mapLookup (handle [(9090, 2)]
        { req := sampleReq "9090", outcome := .transportErr, persistOk := true }).reg 9090 = some 3 := by
  have h := transportFailureResponseAndMutation [(9090, 2)]
      { req := sampleReq "9090", outcome := .transportErr, persistOk := true } 9090
      (by decide) rfl
  refine ⟨h.1, ?_⟩
  rw [(h.2.1 2 (by decide)).1]
  decide

/-- Claim C3, counterexample: at the representable record
(8080, 2^63 - 1), a successful forward does not increase the count by 1:
Go's 64-bit `Count++` wraps, the record becomes (8080, -2^63), and the
single persistence write carries the wrapped value, not max + 1. -/
theorem incrementWrapsAtMaxInt :
    mapLookup (handle [(8080, 9223372036854775807)]
        { req := sampleReq "8080", outcome := .ok sampleResp, persistOk := true }).reg 8080 =
      some (-9223372036854775808) ∧
    (handle [(8080, 9223372036854775807)]
        { req := sampleReq "8080", outcome := .ok sampleResp, persistOk := true }).events.filter
      isPersistEvent = [Event.persistWrite 8080 (-9223372036854775808)] ∧
    (-9223372036854775808 : Int) ≠ 9223372036854775807 + 1 := by
  decide

/-- Claim C3, amended: for an identifier with a record, a handled request
replaces the record's count c by the wrapping 64-bit increment of c —
which equals c + 1 whenever c is a representable count below the int64
maximum, and wraps to the int64 minimum at the maximum — leaves every
other port's count unchanged, and issues exactly one persistence write,
carrying the new in-memory value; for an identifier with no record the
registry is unchanged, the miss is logged, and no persistence write is
issued. -/
theorem incrementByOneAndPersist (reg : Registry) (inp : HandlerInput)
    (port : Int) (hp : atoi inp.req.pathSeg = some port) :
    (∀ c, mapLookup reg port = some c →
        mapLookup (handle reg inp).reg port = some (wrap64 (c + 1)) ∧
        (goIntMin ≤ c → c < goIntMax → wrap64 (c + 1) = c + 1) ∧
        (∀ p, p ≠ port → mapLookup (handle reg inp).reg p = mapLookup reg p) ∧
        (handle reg inp).events.filter isPersistEvent =
          [Event.persistWrite port (wrap64 (c + 1))]) ∧
    (mapLookup reg port = none →
        (handle reg inp).reg = reg ∧
        Event.logMiss port ∈ (handle reg inp).events ∧
        (handle reg inp).events.filter isPersistEvent = []) := by
  constructor
  · intro c hc
    rw [handle_found reg inp port c hp hc]
    refine ⟨mapLookup_mapInsert_self reg port (wrap64 (c + 1)), ?_, ?_, ?_⟩
    · intro hlo hhi
      exact wrap64_eq_self (c + 1) (by omega) (by omega)
    · intro p hpp
      exact mapLookup_mapInsert_ne reg port (wrap64 (c + 1)) p hpp
    · cases inp.outcome <;> cases inp.persistOk <;>
        simp [forwardEvents, proxyRequest, isPersistEvent]
  · intro hc
    rw [handle_miss reg inp port hp hc]
    refine ⟨rfl, ?_, ?_⟩ <;>
      cases inp.outcome <;> simp [forwardEvents, proxyRequest, isPersistEvent]

/-- Claim C3, witness: a successful forward to port 9000 with record
(9000, 5) leaves the record at 6 and issues exactly one persistence
write, carrying 6. -/
theorem incrementByOneAndPersistWitness :
    mapLookup (handle [(9000, 5)]
        { req := sampleReq "9000", outcome := .ok sampleResp, persistOk := true }).reg 9000 = some 6 ∧
    (handle [(9000, 5)]
        { req := sampleReq "9000", outcome := .ok sampleResp, persistOk := true }).events.filter
      isPersistEvent = [Event.persistWrite 9000 6] := by
  have h := (incrementByOneAndPersist [(9000, 5)]
      { req := sampleReq "9000", outcome := .ok sampleResp, persistOk := true } 9000
      (by decide)).1 5 (by decide)
  refine ⟨?_, ?_⟩
  · rw [h.1]; decide
  · rw [h.2.2.2]; decide

/-- Claim C5: for an identifier that parses but has no registry record,
the request is still forwarded, the backend's response is relayed to the
client, the registry is unchanged, no persistence write is issued, and
the miss is logged. -/
theorem unknownDestinationStillForwarded (reg : Registry)
    (inp : HandlerInput) (port : Int) (bresp : Resp)
    (hp : atoi inp.req.pathSeg = some port)
    (hmiss : mapLookup reg port = none)
    (hok : inp.outcome = Outbound.ok bresp) :
    (handle reg inp).resp = bresp ∧
    (handle reg inp).reg = reg ∧
    (handle reg inp).events.filter isPersistEvent = [] ∧
    Event.logMiss port ∈ (handle reg inp).events ∧
    Event.forward (mkOutbound port inp.req) ∈ (handle reg inp).events := by
  rw [handle_miss reg inp port hp hmiss, hok]
  refine ⟨rfl, rfl, ?_, ?_, ?_⟩ <;>
    simp [forwardEvents, proxyRequest, isPersistEvent]

/-- Claim C5, witness: a request for port 7000, absent from the registry,
is forwarded and relayed while the registry stays as it was. -/
theorem unknownDestinationStillForwardedWitness :
    (handle [(8080, 5)]
        { req := sampleReq "7000", outcome := .ok sampleResp, persistOk := true }).resp = sampleResp ∧
    (handle [(8080, 5)]
        { req := sampleReq "7000", outcome := .ok sampleResp, persistOk := true }).reg = [(8080, 5)] := by
  have h := unknownDestinationStillForwarded [(8080, 5)]
      { req := sampleReq "7000", outcome := .ok sampleResp, persistOk := true } 7000 sampleResp
      (by decide) (by decide) rfl
  exact ⟨h.1, h.2.1⟩

/-- Claim C6: when the in-memory increment succeeds but the persistence
write fails, the failure is logged and absorbed: the client response and
the new registry are identical to the successful-write run, and the
incremented count (Go's wrapping 64-bit increment of the old value) is
retained in memory. -/
theorem persistFailureAbsorbed (reg : Registry) (r : Req) (oc : Outbound)
    (port c : Int)
    (hp : atoi r.pathSeg = some port)
    (hc : mapLookup reg port = some c) :
    (handle reg { req := r, outcome := oc, persistOk := false }).resp =
      (handle reg { req := r, outcome := oc, persistOk := true }).resp ∧
    (handle reg { req := r, outcome := oc, persistOk := false }).reg =
      (handle reg { req := r, outcome := oc, persistOk := true }).reg ∧
    mapLookup (handle reg { req := r, outcome := oc, persistOk := false }).reg port =
      some (wrap64 (c + 1)) ∧
    Event.logPersistErr port ∈
      (handle reg { req := r, outcome := oc, persistOk := false }).events := by
  rw [handle_found reg { req := r, outcome := oc, persistOk := false } port c hp hc,
    handle_found reg { req := r, outcome := oc, persistOk := true } port c hp hc]
  refine ⟨rfl, rfl, mapLookup_mapInsert_self reg port (wrap64 (c + 1)), ?_⟩
  cases oc <;> simp [forwardEvents, proxyRequest]

/-- Claim C6, witness: the concrete run on record (8080, 5) with a failing
persistence write. -/
theorem persistFailureAbsorbedWitness :
    (handle [(8080, 5)]
        { req := sampleReq "8080", outcome := .ok sampleResp, persistOk := false }).resp =
      (handle [(8080, 5)]
        { req := sampleReq "8080", outcome := .ok sampleResp, persistOk := true }).resp ∧
    mapLookup (handle [(8080, 5)]
        { req := sampleReq "8080", outcome := .ok sampleResp, persistOk := false }).reg 8080 =
      some 6 := by
  have h := persistFailureAbsorbed [(8080, 5)] (sampleReq "8080") (.ok sampleResp) 8080 5
      (by decide) (by decide)
  refine ⟨h.1, ?_⟩
  rw [h.2.2.1]
  decide

/-- Claim C7: whenever the outbound exchange completes at the transport
level, the backend's status code, all of its response headers, and its
body are relayed to the client unmodified, whatever the status code is. -/
theorem backendResponseRelayed (reg : Registry) (inp : HandlerInput)
    (port : Int) (bresp : Resp)
    (hp : atoi inp.req.pathSeg = some port)
    (hok : inp.outcome = Outbound.ok bresp) :
    (handle reg inp).resp = bresp := by
  cases hc : mapLookup reg port with
  | none => rw [handle_miss reg inp port hp hc, hok]; rfl
  | some c => rw [handle_found reg inp port c hp hc, hok]; rfl

/-- Claim C7, witness: a backend 503 with a header and body is relayed
verbatim, an error status notwithstanding. -/
theorem backendResponseRelayedWitness :
    (handle [(8080, 5)]
        { req := sampleReq "8080"
          outcome := .ok { status := 503, headers := [("Retry-After", "120")], body := "down" }
          persistOk := true }).resp =
      { status := 503, headers := [("Retry-After", "120")], body := "down" } :=
  backendResponseRelayed [(8080, 5)]
    { req := sampleReq "8080"
      outcome := .ok { status := 503, headers := [("Retry-After", "120")], body := "down" }
      persistOk := true } 8080
    { status := 503, headers := [("Retry-After", "120")], body := "down" }
    (by decide) rfl

/-- Claim C4, counterexample: on a concrete successful run against record
(8080, 5), the persistence write event sits at position 2 of the trace,
after the lock acquire and before its release, so the write is performed
inside the locked region and the claim that it occurs outside is false. -/
theorem persistWriteInsideLockedRegion :
    (handle [(8080, 5)]
        { req := sampleReq "8080", outcome := .ok sampleResp, persistOk := true }).events.get? 2 =
      some (Event.persistWrite 8080 6) ∧
    heldAt (handle [(8080, 5)]
        { req := sampleReq "8080", outcome := .ok sampleResp, persistOk := true }).events 2 := by
  decide

/-- Claim C4, amended: the registry's lock is never held across the
forwarding operation — every forward event in a handler trace occurs with
the lock free — but the persistence write is performed inside the locked
region: whenever a record exists, the trace contains the persistence
write, carrying the wrapping 64-bit increment of the old count, at a
position where the lock is held. -/
theorem lockNeverAcrossForwardButAcrossPersist (reg : Registry)
    (inp : HandlerInput) (port c : Int)
    (hp : atoi inp.req.pathSeg = some port)
    (hc : mapLookup reg port = some c) :
    (∀ (i : Nat) (ob : OutboundReq),
        (handle reg inp).events.get? i = some (Event.forward ob) →
        ¬heldAt (handle reg inp).events i) ∧
    (∃ i : Nat,
        (handle reg inp).events.get? i =
          some (Event.persistWrite port (wrap64 (c + 1))) ∧
        heldAt (handle reg inp).events i) := by
  rw [handle_found reg inp port c hp hc]
  cases inp.outcome <;> cases inp.persistOk <;>
    simp only [proxyRequest, forwardEvents, List.append_assoc, List.cons_append,
      List.nil_append, if_true, if_false] <;>
    constructor <;>
  first
  | · intro i ob h
      rcases i with _ | _ | _ | _ | _ | i <;>
        simp_all [heldAt, lockBalance]
  | · first
      | exact ⟨1, rfl, by simp [heldAt, lockBalance]⟩
      | exact ⟨2, rfl, by simp [heldAt, lockBalance]⟩

/-- Claim C4, amended witness: the concrete run on record (9090, 1) has
its persistence write at a locked position. -/
theorem lockNeverAcrossForwardButAcrossPersistWitness :
    ∃ i : Nat,
      (handle [(9090, 1)]
          { req := sampleReq "9090", outcome := .ok sampleResp, persistOk := true }).events.get? i =
        some (Event.persistWrite 9090 2) ∧
      heldAt (handle [(9090, 1)]
          { req := sampleReq "9090", outcome := .ok sampleResp, persistOk := true }).events i := by
  have h := lockNeverAcrossForwardButAcrossPersist [(9090, 1)]
      { req := sampleReq "9090", outcome := .ok sampleResp, persistOk := true } 9090 1
      (by decide) (by decide)
  obtain ⟨i, hi, hheld⟩ := h.2
  exact ⟨i, by rw [hi]; decide, hheld⟩

/-- Claim C8: after the startup load of records with distinct ports, the
registry holds exactly one record per loaded identifier, each with its
loaded count, lookups of identifiers outside the load result report
not-found, and the registry's keys are duplicate-free. -/
theorem loadSeedsRegistry (records : List App)
    (hnd : (records.map App.port).Nodup) :
    (∀ a ∈ records, mapLookup (loadApps (records.map some)) a.port = some a.count) ∧
    (∀ p : Int, p ∉ records.map App.port →
        mapLookup (loadApps (records.map some)) p = none) ∧
    ((loadApps (records.map some)).map Prod.fst).Nodup := by
  rw [loadApps_map_some]
  refine ⟨?_, ?_, ?_⟩
  · intro a ha
    exact load_fold_lookup_mem records [] a hnd ha
  · intro p hp
    rw [load_fold_lookup_not_mem records [] p hp]
    rfl
  · exact load_fold_keys_nodup records [] (by simp)

/-- Claim C8, witness: loading the records (8080, 3) and (9090, 0) makes
Get 8080 report (8080, 3) and leaves Get 7000 reporting not-found. -/
theorem loadSeedsRegistryWitness :
    mapLookup (loadApps ([⟨8080, 3⟩, ⟨9090, 0⟩].map (some : App → Option App))) 8080 = some 3 ∧
    mapLookup (loadApps ([⟨8080, 3⟩, ⟨9090, 0⟩].map (some : App → Option App))) 7000 = none := by
  have h := loadSeedsRegistry [⟨8080, 3⟩, ⟨9090, 0⟩] (by decide)
  exact ⟨h.1 ⟨8080, 3⟩ (by decide), h.2.1 7000 (by decide)⟩

/-- Claim C9, counterexample: from the representable record
(8080, 2^63 - 1), one handled request drops the count to -2^63 — Go's
64-bit increment wraps at the int64 maximum — so the in-memory count is
not monotonically non-decreasing over the request path. -/
theorem countWrapsNegative :
    mapLookup (runSeq [(8080, 9223372036854775807)]
        [{ req := sampleReq "8080", outcome := .ok sampleResp, persistOk := true }]) 8080 =
      some (-9223372036854775808) ∧
    (-9223372036854775808 : Int) < 9223372036854775807 := by
  decide

/-- Claim C9, amended: no operation in the request path ever removes a
record, and counts are monotonically non-decreasing as long as they stay
below the int64 maximum: along any sequence of n handled requests
starting from a record whose count c satisfies goIntMin ≤ c and
c + n ≤ goIntMax, the record survives with a count between c and c + n;
at the int64 maximum an increment instead wraps to the int64 minimum. -/
theorem countsMonotoneOverRuns (reg : Registry) (inps : List HandlerInput)
    (p c : Int) (h : mapLookup reg p = some c)
    (hlo : goIntMin ≤ c) (hhi : c + inps.length ≤ goIntMax) :
    ∃ c', mapLookup (runSeq reg inps) p = some c' ∧ c ≤ c' ∧
      c' ≤ c + inps.length := by
  induction inps generalizing reg c with
  | nil => exact ⟨c, h, le_refl c, by simp⟩
  | cons inp rest ih =>
      simp only [List.length_cons] at hhi ⊢
      push_cast at hhi ⊢
      have hnn : (0 : Int) ≤ (rest.length : Int) := Int.ofNat_nonneg _
      rcases handle_count_step reg inp p c h with hsame | hinc
      · obtain ⟨c', hc', hge, hle⟩ :=
          ih (handle reg inp).reg c hsame hlo (by omega)
        exact ⟨c', hc', hge, by omega⟩
      · have hwrap : wrap64 (c + 1) = c + 1 :=
          wrap64_eq_self (c + 1) (by omega) (by omega)
        rw [hwrap] at hinc
        obtain ⟨c', hc', hge, hle⟩ :=
          ih (handle reg inp).reg (c + 1) hinc (by omega) (by omega)
        exact ⟨c', hc', by omega, by omega⟩

/-- Claim C9, amended witness: starting from record (8080, 5), one
concrete handled request leaves the count between 5 and 6. -/
theorem countsMonotoneOverRunsWitness :
    ∃ c' : Int,
      mapLookup (runSeq [(8080, 5)]
          [{ req := sampleReq "8080", outcome := .ok sampleResp, persistOk := true }]) 8080 =
        some c' ∧ (5 : Int) ≤ c' ∧ c' ≤ 6 := by
  obtain ⟨c', h1, h2, h3⟩ := countsMonotoneOverRuns [(8080, 5)]
      [{ req := sampleReq "8080", outcome := .ok sampleResp, persistOk := true }] 8080 5
      (by decide) (by decide) (by decide)
  refine ⟨c', h1, h2, ?_⟩
  simp only [List.length_singleton, Nat.cast_one] at h3
  omega

/-- Claim C10: the handler's behaviour is independent of the inbound query
string — changing it changes neither the response, the registry, nor any
event, the outbound request included — and the outbound request is built
from exactly the method, the loopback URL formed from port and path, the
headers, and the body of the inbound request. -/
theorem queryStringNeverForwarded (reg : Registry) (inp : HandlerInput)
    (q : String) :
    handle reg { inp with req := { inp.req with rawQuery := q } } = handle reg inp ∧
    ∀ port : Int,
      mkOutbound port inp.req =
        { method := inp.req.method
          url := "http://localhost:" ++ toString port ++ inp.req.path
          headers := inp.req.headers
          body := inp.req.body } := by
  constructor
  · obtain ⟨⟨ps, pa, rq, me, he, bo⟩, oc, pk⟩ := inp
    cases hp : atoi ps with
    | none =>
        rw [handle_badid reg _ hp, handle_badid reg _ hp]
    | some port =>
        cases hc : mapLookup reg port with
        | some c =>
            rw [handle_found reg _ port c hp hc, handle_found reg _ port c hp hc]
            cases oc <;> rfl
        | none =>
            rw [handle_miss reg _ port hp hc, handle_miss reg _ port hp hc]
            cases oc <;> rfl
  · intro port
    rfl

end Gateway
